import Mathlib

/-!
# Verification of the KIM-1 driver core (kim1.cpp)

A shallow embedding of the mutable state and the I/O callbacks of the
KIM-1 machine driver, together with theorems settling the specification
claims about it.

State fields mirror the members of `kim1_state` (includes/kim1.h):
`m_u2_port_b` (uint8_t), `m_311_output` (uint8_t),
`m_cassette_high_count` (uint32_t), `m_led_time[6]` (uint8_t each).
The external digit-display sink written through
`output().set_digit_value(idx, v)` is modelled as a map `digits` from
digit index to the last segment value commanded.  Machine bytes are
`Nat` with explicit `% 2^32` where the C++ integer width can overflow
(only the `m_cassette_high_count++` increment can; every other
assignment stores an in-range value).
-/

namespace Kim1

/-- The mutable machine state of `kim1_state` relevant to the claims,
plus the external digit-display sink. -/
structure Kim1State where
  m_u2_port_b : Nat
  m_311_output : Nat
  m_cassette_high_count : Nat
  m_led_time : Fin 6 → Nat
  digits : Fin 6 → Nat
  deriving DecidableEq

/-- `kim1_state::kim1_u2_read_a` (kim1.cpp lines 167-184): switch on
`(m_u2_port_b >> 1) & 0x0f`; rows 0..2 return the external row input,
every other selector returns the default `0xff`.  The source function
reads state only, so the embedding returns a plain byte. -/
def kim1_u2_read_a (s : Kim1State) (row0 row1 row2 : Nat) : Nat :=
  match (s.m_u2_port_b >>> 1) &&& 0x0f with
  | 0 => row0
  | 1 => row1
  | 2 => row2
  | _ => 0xff

/-- `kim1_state::kim1_u2_write_a` (kim1.cpp lines 187-199): when the
row selector derived from the port-B shadow is in [4,10) and bit 7 of
the written byte is set, store `data & 0x7f` as digit `idx-4`'s segment
value and reset that digit's age counter to 15; otherwise do nothing. -/
def kim1_u2_write_a (s : Kim1State) (data : Nat) : Kim1State :=
  if h : 4 ≤ (s.m_u2_port_b >>> 1) &&& 0x0f ∧ (s.m_u2_port_b >>> 1) &&& 0x0f < 10 then
    if data &&& 0x80 ≠ 0 then
      { s with
        digits := Function.update s.digits
          ⟨((s.m_u2_port_b >>> 1) &&& 0x0f) - 4, by omega⟩ (data &&& 0x7f)
        m_led_time := Function.update s.m_led_time
          ⟨((s.m_u2_port_b >>> 1) &&& 0x0f) - 4, by omega⟩ 15 }
    else s
  else s

/-- `kim1_state::kim1_u2_read_b` (kim1.cpp lines 202-208): if the
port-B output value echoed by the adapter device
(`m_riot2->portb_out_get()`, an external input here) has bit 5 set,
return `0xFF`; otherwise `0x7F | (m_311_output ^ 0x80)`. -/
def kim1_u2_read_b (s : Kim1State) (portb_out : Nat) : Nat :=
  if portb_out &&& 0x20 ≠ 0 then 0xff
  else 0x7f ||| (s.m_311_output ^^^ 0x80)

/-- `kim1_state::kim1_u2_write_b` (kim1.cpp lines 211-220): store the
byte into the port-B shadow; when bit 5 is set additionally drive the
cassette audio output (`m_cass->output`) to `-1.0` if bit 7 is set and
`+1.0` otherwise.  The driven level is exact, so it is modelled as an
`Option Int`: `none` when no output call is made. -/
def kim1_u2_write_b (s : Kim1State) (data : Nat) : Kim1State × Option Int :=
  let s1 := { s with m_u2_port_b := data }
  if data &&& 0x20 ≠ 0 then
    (s1, some (if data &&& 0x80 ≠ 0 then -1 else 1))
  else
    (s1, none)

/-- `kim1_state::kim1_cassette_input` (kim1.cpp lines 222-237): sample
the cassette (`tap_val`, an external input whose sign alone is
compared); on a non-positive sample with a pending high run, classify
the run (`0x80` when shorter than 8, else `0`) into `m_311_output`
and clear the run counter; on a positive sample increment the run
counter (a uint32_t, hence mod 2^32). -/
def kim1_cassette_input (s : Kim1State) (tap_val : Int) : Kim1State :=
  let s1 :=
    if tap_val ≤ 0 then
      if s.m_cassette_high_count ≠ 0 then
        { s with
          m_311_output := if s.m_cassette_high_count < 8 then 0x80 else 0
          m_cassette_high_count := 0 }
      else s
    else s
  if tap_val > 0 then
    { s1 with m_cassette_high_count := (s1.m_cassette_high_count + 1) % 2 ^ 32 }
  else s1

/-- `kim1_state::kim1_update_leds` (kim1.cpp lines 240-251): for each
of the six digits, decrement its age counter when nonzero, otherwise
command the display sink to blank it (segment value 0).  The loop body
touches only index `i`, so it is rendered pointwise.  The second
component records, per digit, whether the blank command was issued
during this invocation. -/
def kim1_update_leds (s : Kim1State) : Kim1State × (Fin 6 → Bool) :=
  ({ s with
      m_led_time := fun i =>
        if s.m_led_time i ≠ 0 then s.m_led_time i - 1 else s.m_led_time i
      digits := fun i =>
        if s.m_led_time i ≠ 0 then s.digits i else 0 },
   fun i => s.m_led_time i == 0)

/-- `kim1_state::machine_reset` (kim1.cpp lines 261-270): zero the six
age counters, the tone output and the run-length counter.  Note the
port-B shadow `m_u2_port_b` is not touched. -/
def machine_reset (s : Kim1State) : Kim1State :=
  { s with
    m_led_time := fun _ => 0
    m_311_output := 0
    m_cassette_high_count := 0 }

/-- `kim1_state::missile_w` (kim1.cpp lines 455-462): the live path
(`if (1==1)`) stores `data` at `m_videoram[offset]` and returns. -/
def missile_w (videoram : Nat → Nat) (offset data : Nat) : Nat → Nat :=
  Function.update videoram offset data

/-- `kim1_state::missile_r` (kim1.cpp lines 521-526): the live path
returns `m_videoram[offset]`. -/
def missile_r (videoram : Nat → Nat) (offset : Nat) : Nat :=
  videoram offset

/-- The address map (kim1.cpp line 103) routes bus accesses in
[0x4000,0x5fff] to `missile_r`/`missile_w` with the offset taken
relative to the window base, sharing the `videoram` region. -/
def busWrite (videoram : Nat → Nat) (addr data : Nat) : Nat → Nat :=
  missile_w videoram (addr - 0x4000) data

/-- Bus read counterpart of `busWrite` for the [0x4000,0x5fff] window. -/
def busRead (videoram : Nat → Nat) (addr : Nat) : Nat :=
  missile_r videoram (addr - 0x4000)

/-- Iterated LED ticker: `n` consecutive invocations of
`kim1_update_leds` with no intervening display write. -/
def ledTicks (n : Nat) (s : Kim1State) : Kim1State :=
  Nat.rec s (fun _ t => (kim1_update_leds t).1) n

/-- One state-mutating operation of the driver: the adapter port
writes, the two timer callbacks, and machine reset.  The port reads
mutate nothing and so contribute no step. -/
inductive Step : Kim1State → Kim1State → Prop where
  | write_a (s : Kim1State) (data : Nat) : Step s (kim1_u2_write_a s data)
  | write_b (s : Kim1State) (data : Nat) : Step s (kim1_u2_write_b s data).1
  | cassette (s : Kim1State) (tap_val : Int) : Step s (kim1_cassette_input s tap_val)
  | leds (s : Kim1State) : Step s (kim1_update_leds s).1
  | reset (s : Kim1State) : Step s (machine_reset s)

/-- States reachable after the first machine reset, via any sequence of
driver operations. -/
inductive Reachable : Kim1State → Prop where
  | boot (s0 : Kim1State) : Reachable (machine_reset s0)
  | step {s t : Kim1State} : Reachable s → Step s t → Reachable t

/-- A concrete all-zero machine state, used to instantiate theorems. -/
def st0 : Kim1State :=
  { m_u2_port_b := 0, m_311_output := 0, m_cassette_high_count := 0
    m_led_time := fun _ => 0, digits := fun _ => 0 }

/-- A concrete pre-reset state with nonzero fields, exhibiting what
`machine_reset` does and does not clear. -/
def resetPre : Kim1State :=
  { m_u2_port_b := 0x2a, m_311_output := 3, m_cassette_high_count := 7
    m_led_time := fun _ => 9, digits := fun _ => 5 }

/-- C1 counterexample: starting from the concrete pre-reset state with
port-B shadow 0x2a, `machine_reset` leaves the shadow at 0x2a, not 0 —
the reset never assigns `m_u2_port_b`. -/
theorem machine_reset_portb_not_cleared :
    (machine_reset resetPre).m_u2_port_b = 0x2a ∧ (0x2a : Nat) ≠ 0 :=
  ⟨rfl, by decide⟩

/-- C1 (amended): after `machine_reset`, the tone output, the
run-length counter and all six digit age counters equal zero, for
every pre-reset state; the port-B shadow is left unchanged. -/
theorem machine_reset_spec (s : Kim1State) :
    (machine_reset s).m_311_output = 0 ∧
    (machine_reset s).m_cassette_high_count = 0 ∧
    (∀ i : Fin 6, (machine_reset s).m_led_time i = 0) ∧
    (machine_reset s).m_u2_port_b = s.m_u2_port_b :=
  ⟨rfl, rfl, fun _ => rfl, rfl⟩

/-- C4: the port-B read returns 0xFF whenever the adapter-echoed output
value has bit 5 set, and `0x7F | (m_311_output ^ 0x80)` otherwise; in
particular tone output 0 yields 0xFF and tone output 0x80 yields 0x7F. -/
theorem kim1_u2_read_b_spec (s : Kim1State) (portb_out : Nat) :
    (portb_out &&& 0x20 ≠ 0 → kim1_u2_read_b s portb_out = 0xff) ∧
    (portb_out &&& 0x20 = 0 →
      kim1_u2_read_b s portb_out = 0x7f ||| (s.m_311_output ^^^ 0x80)) ∧
    (portb_out &&& 0x20 = 0 → s.m_311_output = 0 →
      kim1_u2_read_b s portb_out = 0xff) ∧
    (portb_out &&& 0x20 = 0 → s.m_311_output = 0x80 →
      kim1_u2_read_b s portb_out = 0x7f) := by
  refine ⟨fun h => ?_, fun h => ?_, fun h h0 => ?_, fun h h80 => ?_⟩
  · simp [kim1_u2_read_b, h]
  · simp [kim1_u2_read_b, h]
  · simp [kim1_u2_read_b, h, h0]
  · simp [kim1_u2_read_b, h, h80]

/-- Witness for C4 at concrete inputs: echoed value 0x20 masks the read
to 0xFF, and with bit 5 clear the zero tone output reads back 0xFF. -/
theorem kim1_u2_read_b_spec_witness :
    kim1_u2_read_b st0 0x20 = 0xff ∧ kim1_u2_read_b st0 0 = 0xff :=
  ⟨(kim1_u2_read_b_spec st0 0x20).1 (by decide),
   (kim1_u2_read_b_spec st0 0).2.2.1 (by decide) rfl⟩

/-- C5: the keyboard read returns the externally supplied row vector
for row selectors 0, 1 and 2 and 0xFF for every other selector; the
embedding is a pure function of the state, mutating nothing. -/
theorem kim1_u2_read_a_spec (s : Kim1State) (row0 row1 row2 : Nat) :
    ((s.m_u2_port_b >>> 1) &&& 0x0f = 0 →
      kim1_u2_read_a s row0 row1 row2 = row0) ∧
    ((s.m_u2_port_b >>> 1) &&& 0x0f = 1 →
      kim1_u2_read_a s row0 row1 row2 = row1) ∧
    ((s.m_u2_port_b >>> 1) &&& 0x0f = 2 →
      kim1_u2_read_a s row0 row1 row2 = row2) ∧
    ((s.m_u2_port_b >>> 1) &&& 0x0f ≠ 0 →
      (s.m_u2_port_b >>> 1) &&& 0x0f ≠ 1 →
      (s.m_u2_port_b >>> 1) &&& 0x0f ≠ 2 →
      kim1_u2_read_a s row0 row1 row2 = 0xff) := by
  refine ⟨fun h => ?_, fun h => ?_, fun h => ?_, fun h0 h1 h2 => ?_⟩
  · simp [kim1_u2_read_a, h]
  · simp [kim1_u2_read_a, h]
  · simp [kim1_u2_read_a, h]
  · unfold kim1_u2_read_a
    rcases hv : (s.m_u2_port_b >>> 1) &&& 0x0f with _ | _ | _ | n
    · exact absurd hv h0
    · exact absurd hv h1
    · exact absurd hv h2
    · rfl

/-- Witness for C5 at concrete inputs: port-B shadow 0 selects row 0,
and shadow 6 (selector 3) returns the 0xFF default. -/
theorem kim1_u2_read_a_spec_witness :
    kim1_u2_read_a st0 0xbf 0xfe 0xfd = 0xbf ∧
    kim1_u2_read_a { st0 with m_u2_port_b := 6 } 0xbf 0xfe 0xfd = 0xff :=
  ⟨(kim1_u2_read_a_spec st0 0xbf 0xfe 0xfd).1 (by decide),
   (kim1_u2_read_a_spec { st0 with m_u2_port_b := 6 } 0xbf 0xfe 0xfd).2.2.2
     (by decide) (by decide) (by decide)⟩

/-- C7: the port-B write stores the byte into the shadow
unconditionally and changes nothing else; it drives the cassette audio
output to -1.0 / +1.0 (by bit 7) exactly when bit 5 of the byte is
set, and drives no output when bit 5 is clear. -/
theorem kim1_u2_write_b_spec (s : Kim1State) (data : Nat) :
    (kim1_u2_write_b s data).1 = { s with m_u2_port_b := data } ∧
    (data &&& 0x20 ≠ 0 →
      (kim1_u2_write_b s data).2 =
        some (if data &&& 0x80 ≠ 0 then (-1 : Int) else 1)) ∧
    (data &&& 0x20 = 0 → (kim1_u2_write_b s data).2 = none) := by
  refine ⟨?_, fun h => ?_, fun h => ?_⟩
  · unfold kim1_u2_write_b
    split <;> rfl
  · simp [kim1_u2_write_b, h]
  · simp [kim1_u2_write_b, h]

/-- Witness for C7 at concrete inputs: writing 0xa0 (bits 5 and 7 set)
drives the audio to -1, and writing 0x00 drives no audio. -/
theorem kim1_u2_write_b_spec_witness :
    (kim1_u2_write_b st0 0xa0).2 = some (-1 : Int) ∧
    (kim1_u2_write_b st0 0).2 = none :=
  ⟨((kim1_u2_write_b_spec st0 0xa0).2.1 (by decide)).trans (by decide),
   (kim1_u2_write_b_spec st0 0).2.2 (by decide)⟩

/-- C6: a port-A write with bit 7 set while the row selector equals
`i + 4` (i.e. lies in [4,9]) stores `data & 0x7f` as digit `i`'s
segment value and resets digit `i`'s age counter to 15; a write with
bit 7 clear, or with the selector outside [4,9], is a complete no-op. -/
theorem kim1_u2_write_a_spec (s : Kim1State) (data : Nat) (i : Fin 6) :
    ((s.m_u2_port_b >>> 1) &&& 0x0f = i.val + 4 → data &&& 0x80 ≠ 0 →
      (kim1_u2_write_a s data).digits i = data &&& 0x7f ∧
      (kim1_u2_write_a s data).m_led_time i = 15) ∧
    (data &&& 0x80 = 0 → kim1_u2_write_a s data = s) ∧
    ((s.m_u2_port_b >>> 1) &&& 0x0f < 4 ∨ 10 ≤ (s.m_u2_port_b >>> 1) &&& 0x0f →
      kim1_u2_write_a s data = s) := by
  refine ⟨fun hidx hbit => ?_, fun hbit => ?_, fun hout => ?_⟩
  · have h4 : 4 ≤ (s.m_u2_port_b >>> 1) &&& 0x0f ∧
        (s.m_u2_port_b >>> 1) &&& 0x0f < 10 := by
      have := i.isLt
      omega
    have hfin : (⟨((s.m_u2_port_b >>> 1) &&& 0x0f) - 4, by omega⟩ : Fin 6) = i := by
      apply Fin.ext
      simp [hidx]
    unfold kim1_u2_write_a
    rw [dif_pos h4, if_pos hbit]
    constructor
    · show Function.update s.digits _ (data &&& 0x7f) i = data &&& 0x7f
      rw [hfin, Function.update_same]
    · show Function.update s.m_led_time _ 15 i = 15
      rw [hfin, Function.update_same]
  · unfold kim1_u2_write_a
    split
    · rw [if_neg (by simpa using hbit)]
    · rfl
  · unfold kim1_u2_write_a
    rw [dif_neg (by omega)]

/-- Witness for C6 at concrete inputs: with port-B shadow 8 (selector
4) a write of 0xff lights digit 0 with pattern 0x7f and sets its age
to 15, while a write of 0x55 (bit 7 clear) leaves the state intact. -/
theorem kim1_u2_write_a_spec_witness :
    (kim1_u2_write_a { st0 with m_u2_port_b := 8 } 0xff).digits 0 = 0x7f ∧
    (kim1_u2_write_a { st0 with m_u2_port_b := 8 } 0xff).m_led_time 0 = 15 ∧
    kim1_u2_write_a { st0 with m_u2_port_b := 8 } 0x55 =
      { st0 with m_u2_port_b := 8 } :=
  ⟨((kim1_u2_write_a_spec { st0 with m_u2_port_b := 8 } 0xff 0).1
      (by decide) (by decide)).1.trans (by decide),
   ((kim1_u2_write_a_spec { st0 with m_u2_port_b := 8 } 0xff 0).1
      (by decide) (by decide)).2,
   (kim1_u2_write_a_spec { st0 with m_u2_port_b := 8 } 0x55 0).2.1 (by decide)⟩

/-- C3: one cassette-sampler tick on a positive sample increments the
run-length counter (a uint32_t, hence mod 2^32) and changes nothing
else; on a non-positive sample with a nonzero run it sets the tone
output to 0x80 when the run is shorter than 8 and to 0 otherwise and
clears the run counter; on a non-positive sample with a zero run it
changes nothing. -/
theorem kim1_cassette_input_spec (s : Kim1State) (tap_val : Int) :
    (0 < tap_val →
      kim1_cassette_input s tap_val =
        { s with m_cassette_high_count := (s.m_cassette_high_count + 1) % 2 ^ 32 }) ∧
    (tap_val ≤ 0 → s.m_cassette_high_count ≠ 0 →
      kim1_cassette_input s tap_val =
        { s with
          m_311_output := if s.m_cassette_high_count < 8 then 0x80 else 0
          m_cassette_high_count := 0 }) ∧
    (tap_val ≤ 0 → s.m_cassette_high_count = 0 →
      kim1_cassette_input s tap_val = s) := by
  refine ⟨fun h => ?_, fun h hc => ?_, fun h hc => ?_⟩
  · simp [kim1_cassette_input, h, not_le.mpr h]
  · simp [kim1_cassette_input, h, hc, not_lt.mpr h]
  · simp [kim1_cassette_input, h, hc, not_lt.mpr h]

/-- Witness for C3 at concrete inputs, matching the spec's test vector:
a run of 5 highs classified on a non-positive sample yields tone 0x80,
a run of 10 yields tone 0, and a positive sample counts up from 0. -/
theorem kim1_cassette_input_spec_witness :
    (kim1_cassette_input { st0 with m_cassette_high_count := 5 } 0).m_311_output
      = 0x80 ∧
    (kim1_cassette_input { st0 with m_cassette_high_count := 10 } 0).m_311_output
      = 0 ∧
    (kim1_cassette_input st0 1).m_cassette_high_count = 1 := by
  refine ⟨?_, ?_, ?_⟩
  · rw [(kim1_cassette_input_spec { st0 with m_cassette_high_count := 5 } 0).2.1
      (by decide) (by decide)]
    decide
  · rw [(kim1_cassette_input_spec { st0 with m_cassette_high_count := 10 } 0).2.1
      (by decide) (by decide)]
    decide
  · rw [(kim1_cassette_input_spec st0 1).1 (by decide)]
    decide

lemma ledTicks_succ (n : Nat) (s : Kim1State) :
    ledTicks (n + 1) s = (kim1_update_leds (ledTicks n s)).1 := rfl

lemma kim1_update_leds_led_time (s : Kim1State) (i : Fin 6) :
    (kim1_update_leds s).1.m_led_time i =
      if s.m_led_time i ≠ 0 then s.m_led_time i - 1 else s.m_led_time i := rfl

lemma kim1_update_leds_blank (s : Kim1State) (i : Fin 6) :
    (kim1_update_leds s).2 i = (s.m_led_time i == 0) := rfl

lemma kim1_update_leds_digits (s : Kim1State) (i : Fin 6) :
    (kim1_update_leds s).1.digits i =
      if s.m_led_time i ≠ 0 then s.digits i else 0 := rfl

/-- With no intervening display write, `k` LED ticks from an age of `t`
leave the age at `t - k`, as long as `k ≤ t`. -/
lemma ledTicks_led_time (s : Kim1State) (i : Fin 6) (t : Nat)
    (h : s.m_led_time i = t) :
    ∀ k, k ≤ t → (ledTicks k s).m_led_time i = t - k := by
  intro k
  induction k with
  | zero => simpa using h
  | succ k ih =>
    intro hk
    have ihk := ih (Nat.le_of_succ_le hk)
    rw [ledTicks_succ, kim1_update_leds_led_time]
    rw [if_pos (by omega), ihk]
    omega

/-- C2: from a digit age of 15 (just set by a display write), each of
the first 15 LED-ticker invocations decrements the age and issues no
blank command for that digit, the age is 0 after the 15th invocation,
and the 16th invocation issues the blank command, driving the digit's
segment value to 0. -/
theorem led_decay_spec (s : Kim1State) (i : Fin 6) (h : s.m_led_time i = 15) :
    (∀ k, k < 15 → (kim1_update_leds (ledTicks k s)).2 i = false ∧
      (ledTicks (k + 1) s).m_led_time i = 15 - (k + 1)) ∧
    (ledTicks 15 s).m_led_time i = 0 ∧
    (kim1_update_leds (ledTicks 15 s)).2 i = true ∧
    (kim1_update_leds (ledTicks 15 s)).1.digits i = 0 := by
  have hage := ledTicks_led_time s i 15 h
  refine ⟨fun k hk => ⟨?_, ?_⟩, ?_, ?_, ?_⟩
  · rw [kim1_update_leds_blank, hage k (by omega)]
    simp
    omega
  · exact hage (k + 1) (by omega)
  · simpa using hage 15 (by omega)
  · rw [kim1_update_leds_blank, hage 15 (by omega)]
    decide
  · rw [kim1_update_leds_digits, hage 15 (by omega)]
    simp

/-- A concrete state whose six digit ages are all 15, as left by a
fresh display write. -/
def stW : Kim1State :=
  { m_u2_port_b := 8, m_311_output := 0, m_cassette_high_count := 0
    m_led_time := fun _ => 15, digits := fun _ => 0x7f }

/-- Witness for C2 at a concrete state: digit 0's age is 0 after 15
ticks and the 16th tick issues the blank. -/
theorem led_decay_spec_witness :
    (ledTicks 15 stW).m_led_time 0 = 0 ∧
    (kim1_update_leds (ledTicks 15 stW)).2 0 = true := by
  have h := led_decay_spec stW 0 rfl
  exact ⟨h.2.1, h.2.2.1⟩

/-- C8: within the video window [0x4000,0x5fff], a bus write followed
by a bus read at the same address returns the written byte, the write
leaves every other video-buffer cell unchanged, and reads at other
window addresses are unaffected. -/
lemma missile_rw_same (videoram : Nat → Nat) (offset data : Nat) :
    missile_r (missile_w videoram offset data) offset = data := by
  unfold missile_r missile_w
  rw [Function.update_same]

lemma missile_w_other (videoram : Nat → Nat) (offset data j : Nat)
    (hj : j ≠ offset) : missile_w videoram offset data j = videoram j := by
  unfold missile_w
  rw [Function.update_noteq hj]

lemma missile_rw_other (videoram : Nat → Nat) (offset data o2 : Nat)
    (h : o2 ≠ offset) :
    missile_r (missile_w videoram offset data) o2 = videoram o2 := by
  unfold missile_r missile_w
  rw [Function.update_noteq h]

theorem missile_roundtrip (videoram : Nat → Nat) (addr data : Nat)
    (h1 : 0x4000 ≤ addr) (h2 : addr ≤ 0x5fff) :
    busRead (busWrite videoram addr data) addr = data ∧
    (∀ j, j ≠ addr - 0x4000 → busWrite videoram addr data j = videoram j) ∧
    (∀ addr2, 0x4000 ≤ addr2 → addr2 ≤ 0x5fff → addr2 ≠ addr →
      busRead (busWrite videoram addr data) addr2 = videoram (addr2 - 0x4000)) :=
  ⟨missile_rw_same videoram (addr - 0x4000) data,
   fun j hj => missile_w_other videoram (addr - 0x4000) data j hj,
   fun addr2 g1 g2 hne =>
     missile_rw_other videoram (addr - 0x4000) data (addr2 - 0x4000) (by omega)⟩

/-- Witness for C8 at concrete inputs: writing 0xab at address 0x4123
over an all-zero buffer reads back 0xab there and 0 at 0x4124. -/
theorem missile_roundtrip_witness :
    busRead (busWrite (fun _ => 0) 0x4123 0xab) 0x4123 = 0xab ∧
    busRead (busWrite (fun _ => 0) 0x4123 0xab) 0x4124 = 0 :=
  ⟨(missile_roundtrip (fun _ => 0) 0x4123 0xab (by norm_num) (by norm_num)).1,
   (missile_roundtrip (fun _ => 0) 0x4123 0xab (by norm_num) (by norm_num)).2.2
     0x4124 (by norm_num) (by norm_num) (by norm_num)⟩

lemma kim1_u2_write_a_led_time (s : Kim1State) (data : Nat) (i : Fin 6) :
    (kim1_u2_write_a s data).m_led_time i = 15 ∨
    (kim1_u2_write_a s data).m_led_time i = s.m_led_time i := by
  unfold kim1_u2_write_a
  split
  · split
    · dsimp only
      rw [Function.update_apply]
      split
      · exact Or.inl rfl
      · exact Or.inr rfl
    · exact Or.inr rfl
  · exact Or.inr rfl

lemma kim1_u2_write_a_m_311_output (s : Kim1State) (data : Nat) :
    (kim1_u2_write_a s data).m_311_output = s.m_311_output := by
  unfold kim1_u2_write_a
  split
  · split <;> rfl
  · rfl

lemma kim1_u2_write_b_led_time (s : Kim1State) (data : Nat) :
    (kim1_u2_write_b s data).1.m_led_time = s.m_led_time := by
  unfold kim1_u2_write_b
  split <;> rfl

lemma kim1_u2_write_b_m_311_output (s : Kim1State) (data : Nat) :
    (kim1_u2_write_b s data).1.m_311_output = s.m_311_output := by
  unfold kim1_u2_write_b
  split <;> rfl

lemma kim1_cassette_input_led_time (s : Kim1State) (tap_val : Int) :
    (kim1_cassette_input s tap_val).m_led_time = s.m_led_time := by
  unfold kim1_cassette_input
  by_cases h1 : tap_val ≤ 0 <;> by_cases h2 : s.m_cassette_high_count ≠ 0 <;>
    by_cases h3 : tap_val > 0 <;> simp [h1, h2, h3]

lemma kim1_cassette_input_m_311_output (s : Kim1State) (tap_val : Int) :
    (kim1_cassette_input s tap_val).m_311_output = s.m_311_output ∨
    (kim1_cassette_input s tap_val).m_311_output = 0x80 ∨
    (kim1_cassette_input s tap_val).m_311_output = 0 := by
  unfold kim1_cassette_input
  by_cases h1 : tap_val ≤ 0 <;> by_cases h2 : s.m_cassette_high_count ≠ 0 <;>
    by_cases h3 : tap_val > 0 <;> by_cases h4 : s.m_cassette_high_count < 8 <;>
    simp [h1, h2, h3, h4]

lemma kim1_update_leds_led_time_le (s : Kim1State) (i : Fin 6) :
    (kim1_update_leds s).1.m_led_time i ≤ s.m_led_time i := by
  rw [kim1_update_leds_led_time]
  split <;> omega

lemma kim1_update_leds_m_311_output (s : Kim1State) :
    (kim1_update_leds s).1.m_311_output = s.m_311_output := rfl

/-- C9: in every reachable state every digit age counter lies in
[0,15]: reset zeroes them, a display write sets one to 15, the LED
ticker only ever decrements, and no other operation touches them. -/
theorem led_time_in_range (s : Kim1State) (h : Reachable s) :
    ∀ i : Fin 6, s.m_led_time i ≤ 15 := by
  induction h with
  | boot s0 =>
    intro i
    show (0 : Nat) ≤ 15
    omega
  | step hr hstep ih =>
    cases hstep with
    | write_a data =>
      intro i
      rcases kim1_u2_write_a_led_time _ data i with he | he <;> rw [he]
      exact ih i
    | write_b data =>
      intro i
      rw [kim1_u2_write_b_led_time]
      exact ih i
    | cassette tap_val =>
      intro i
      rw [kim1_cassette_input_led_time]
      exact ih i
    | leds =>
      intro i
      exact le_trans (kim1_update_leds_led_time_le _ i) (ih i)
    | reset =>
      intro i
      show (0 : Nat) ≤ 15
      omega

/-- Witness for C9: the freshly reset all-zero machine is reachable
and its digit 0 age is within range. -/
theorem led_time_in_range_witness : (machine_reset st0).m_led_time 0 ≤ 15 :=
  led_time_in_range (machine_reset st0) (Reachable.boot st0) 0

/-- C10: in every reachable state the tone output is 0 or 0x80 (reset
zeroes it and the cassette sampler only ever assigns 0x80 or 0), so
the port-B read returns 0xFF or 0x7F for every echoed output value. -/
theorem m_311_output_invariant (s : Kim1State) (h : Reachable s) :
    (s.m_311_output = 0 ∨ s.m_311_output = 0x80) ∧
    ∀ portb_out : Nat,
      kim1_u2_read_b s portb_out = 0xff ∨ kim1_u2_read_b s portb_out = 0x7f := by
  have htone : s.m_311_output = 0 ∨ s.m_311_output = 0x80 := by
    induction h with
    | boot s0 => exact Or.inl rfl
    | step hr hstep ih =>
      cases hstep with
      | write_a data =>
        rw [kim1_u2_write_a_m_311_output]
        exact ih
      | write_b data =>
        rw [kim1_u2_write_b_m_311_output]
        exact ih
      | cassette tap_val =>
        rcases kim1_cassette_input_m_311_output _ tap_val with he | he | he <;>
          rw [he]
        · exact ih
        · exact Or.inr rfl
        · exact Or.inl rfl
      | leds =>
        rw [kim1_update_leds_m_311_output]
        exact ih
      | reset => exact Or.inl rfl
  refine ⟨htone, fun portb_out => ?_⟩
  unfold kim1_u2_read_b
  split
  · exact Or.inl rfl
  · rcases htone with h0 | h80
    · rw [h0]
      exact Or.inl (by decide)
    · rw [h80]
      exact Or.inr (by decide)

/-- Witness for C10: at the reachable freshly reset all-zero state the
tone output is 0 and the port-B read with echoed value 0 returns
0xFF (in particular, 0xFF or 0x7F). -/
theorem m_311_output_invariant_witness :
    ((machine_reset st0).m_311_output = 0 ∨
      (machine_reset st0).m_311_output = 0x80) ∧
    (kim1_u2_read_b (machine_reset st0) 0 = 0xff ∨
      kim1_u2_read_b (machine_reset st0) 0 = 0x7f) :=
  ⟨(m_311_output_invariant (machine_reset st0) (Reachable.boot st0)).1,
   (m_311_output_invariant (machine_reset st0) (Reachable.boot st0)).2 0⟩

end Kim1
